import Mathlib

/-!
Malls page: search, ranking, loading state and debounced input.

A shallow embedding of `Frontend/src/components/Malls.jsx` (component `MallPage`):

* `filteredMalls` — the body of the `useMemo` at lines 62–111;
* `LoadState` / `loadStep` — the two loading effects at lines 42–60;
* `SearchState` / `setSearchTerm` — the debounced search effect at lines 26–40.

JavaScript strings are lists of characters, `undefined`/`null` is `none`, a thrown
`TypeError` is `Except.error`.
-/

namespace Malls

/-! ## Strings -/

/-- A JavaScript string value. -/
abbrev JSString := List Char

/-- The builtin `String.prototype.toLowerCase`, kept abstract.  The two laws are the only
facts about it the development uses: the empty string is mapped to the empty string and
a non-empty string is never mapped to the empty string. -/
structure CaseMap where
  /-- The function `s.toLowerCase()`. -/
  toLowerCase : JSString → JSString
  /-- Lower-casing the empty string. -/
  lower_nil : toLowerCase [] = []
  /-- Lower-casing never deletes a whole string. -/
  lower_ne_nil : ∀ s, s ≠ [] → toLowerCase s ≠ []

/-- Lower-casing restricted to the ASCII letters, on which it agrees with the builtin for
ASCII strings. -/
def asciiLower : CaseMap where
  toLowerCase := List.map Char.toLower
  lower_nil := rfl
  lower_ne_nil := by
    intro s hs h
    exact hs (List.map_eq_nil_iff.mp h)

/-- The builtin `s.includes(t)`: does `t` occur in `s` as a contiguous run. -/
def includes (s t : JSString) : Bool :=
  s.tails.any (fun u => t.isPrefixOf u)

/-! ## Data model -/

/-- A mall record as supplied by `MALLS_DATA_CONTEXT`.  `description` is optional by
design; `state` is optional because the code itself guards against its absence
(`if (!mall.state) return false`). -/
structure Mall where
  id : Nat
  name : JSString
  address : JSString
  state : Option JSString
  description : Option JSString
  displayImage : JSString
deriving DecidableEq

/-- An element of the list returned by `filteredMalls`: the record's own properties plus,
when it was produced by the search scan, the property `relevanceScore`. -/
structure Entry where
  mall : Mall
  relevanceScore : Option Nat
deriving DecidableEq

/-- The error raised by reading a property of `undefined`. -/
inductive JSError where
  | typeError
deriving DecidableEq

/-- A record of the collection returned as it is (no property added). -/
def plain (mall : Mall) : Entry := ⟨mall, none⟩

/-- The object literal `{ ...mall, relevanceScore: n }`. -/
def scored (n : Nat) (mall : Mall) : Entry := ⟨mall, some n⟩

/-! ## `filteredMalls` -/

/-- The four arrays declared at lines 77–80. -/
structure Buckets where
  nameMatches : List Entry
  descriptionMatches : List Entry
  addressMatches : List Entry
  otherMatches : List Entry
deriving DecidableEq

/-- The callback of `stateFiltered = mallsData.filter(...)`, lines 66–69. -/
def stateMatches (L : CaseMap) (selectedState : JSString) (mall : Mall) : Bool :=
  match mall.state with
  | none => false
  | some s =>
    if s.isEmpty then false
    else includes (L.toLowerCase s) (L.toLowerCase selectedState)

/-- The test `mall.description && mall.description.toLowerCase().includes(searchLower)`. -/
def descriptionHit (L : CaseMap) (searchLower : JSString) (mall : Mall) : Bool :=
  match mall.description with
  | none => false
  | some d => !d.isEmpty && includes (L.toLowerCase d) searchLower

/-- The callback of `mallsData.forEach(...)`, lines 82–102: one record is pushed onto at
most one of the four arrays; `mall.state.toLowerCase()` throws when `state` is absent. -/
def classify (L : CaseMap) (searchLower : JSString) (b : Buckets) (mall : Mall) :
    Except JSError Buckets :=
  if includes (L.toLowerCase mall.name) searchLower then
    .ok { b with nameMatches := b.nameMatches ++ [scored 4 mall] }
  else if descriptionHit L searchLower mall then
    .ok { b with descriptionMatches := b.descriptionMatches ++ [scored 3 mall] }
  else if includes (L.toLowerCase mall.address) searchLower then
    .ok { b with addressMatches := b.addressMatches ++ [scored 2 mall] }
  else
    match mall.state with
    | none => .error .typeError
    | some s =>
      if includes (L.toLowerCase s) searchLower then
        .ok { b with otherMatches := b.otherMatches ++ [scored 1 mall] }
      else .ok b

/-- The loop `mallsData.forEach`: the callback is applied to the records in order and an
exception leaves the loop. -/
def forEach (L : CaseMap) (searchLower : JSString) : List Mall → Buckets → Except JSError Buckets
  | [], b => .ok b
  | mall :: rest, b =>
    match classify L searchLower b mall with
    | .error e => .error e
    | .ok b1 => forEach L searchLower rest b1

/-- The value computed by the `useMemo` at lines 62–111 from `selectedState`, `mallsData`
and `debouncedSearchTerm`. -/
def filteredMalls (L : CaseMap) (selectedState : Option JSString) (mallsData : List Mall)
    (debouncedSearchTerm : JSString) : Except JSError (List Entry) :=
  match selectedState with
  | none => .ok (mallsData.map plain)
  | some sel =>
    if sel.isEmpty then .ok (mallsData.map plain)
    else
      let stateFiltered := mallsData.filter (stateMatches L sel)
      if debouncedSearchTerm.isEmpty then .ok (stateFiltered.map plain)
      else
        let searchLower := L.toLowerCase debouncedSearchTerm
        match forEach L searchLower mallsData ⟨[], [], [], []⟩ with
        | .error e => .error e
        | .ok b =>
          .ok (b.nameMatches ++ b.descriptionMatches ++ b.addressMatches ++ b.otherMatches)

/-- The two records of the worked example. -/
def lagosMall : Mall :=
  ⟨1, "Lagos Mall".toList, "1 Main St".toList, some "Lagos".toList, some "big mall".toList, []⟩

/-- A third record, for examples with two records in one tier. -/
def palmsMall : Mall :=
  ⟨4, "Palms Mall".toList, "Lekki road".toList, some "Lagos".toList, none, []⟩

/-- A record that lacks the property `state`. -/
def strayMall : Mall :=
  ⟨3, "Corner Shop".toList, "2 Side St".toList, none, none, []⟩

/-- The second record of the worked example (no description). -/
def cityCenter : Mall :=
  ⟨2, "City Center".toList, "Lagos road".toList, some "Lagos".toList, none, []⟩


/-! ## The specification's wording of the search -/

/-- Case-insensitive containment: the lower-cased term is a substring of the lower-cased
field value. -/
def containsCI (L : CaseMap) (field term : JSString) : Prop :=
  L.toLowerCase term <:+: L.toLowerCase field

instance (L : CaseMap) (field term : JSString) : Decidable (containsCI L field term) :=
  inferInstanceAs (Decidable (_ <:+: _))

/-- Case-insensitive containment in a field that may be absent: an absent field contains
nothing. -/
def containsOpt (L : CaseMap) : Option JSString → JSString → Prop
  | none, _ => False
  | some s, term => containsCI L s term

instance (L : CaseMap) (field : Option JSString) (term : JSString) :
    Decidable (containsOpt L field term) :=
  match field with
  | none => isFalse (fun h => h)
  | some s => inferInstanceAs (Decidable (containsCI L s term))

/-- The relevance tier of a record as the specification words it: the first field, in the
order name (4), description (3), address (2), state (1), that contains the term. -/
def tierOf (L : CaseMap) (term : JSString) (mall : Mall) : Option Nat :=
  if containsCI L mall.name term then some 4
  else if containsOpt L mall.description term then some 3
  else if containsCI L mall.address term then some 2
  else if containsOpt L mall.state term then some 1
  else none

/-- One tier group: the records of tier `k`, in collection order, each annotated. -/
def tierGroup (L : CaseMap) (term : JSString) (k : Nat) (mallsData : List Mall) : List Entry :=
  (mallsData.filter (fun mall => tierOf L term mall = some k)).map (scored k)

/-- The ranked list as the specification words it: the tier-4, tier-3, tier-2 and tier-1
groups concatenated. -/
def ranked (L : CaseMap) (term : JSString) (mallsData : List Mall) : List Entry :=
  tierGroup L term 4 mallsData ++ tierGroup L term 3 mallsData
    ++ tierGroup L term 2 mallsData ++ tierGroup L term 1 mallsData

/-- The relevance tier of an entry as a number (`0` when the property is missing). -/
def score (e : Entry) : Nat := e.relevanceScore.getD 0

/-- Pushing a record onto the array of its tier. -/
def pushTier (b : Buckets) (mall : Mall) : Option Nat → Buckets
  | some 4 => { b with nameMatches := b.nameMatches ++ [scored 4 mall] }
  | some 3 => { b with descriptionMatches := b.descriptionMatches ++ [scored 3 mall] }
  | some 2 => { b with addressMatches := b.addressMatches ++ [scored 2 mall] }
  | some 1 => { b with otherMatches := b.otherMatches ++ [scored 1 mall] }
  | _ => b

/-- The four arrays after adding the tier groups of `mallsData` to `b`. -/
def addGroups (L : CaseMap) (term : JSString) (mallsData : List Mall) (b : Buckets) : Buckets :=
  { nameMatches := b.nameMatches ++ tierGroup L term 4 mallsData
    descriptionMatches := b.descriptionMatches ++ tierGroup L term 3 mallsData
    addressMatches := b.addressMatches ++ tierGroup L term 2 mallsData
    otherMatches := b.otherMatches ++ tierGroup L term 1 mallsData }

/-- A record on which the callback throws: no state, and the term in none of the other
fields. -/
def Throws (L : CaseMap) (term : JSString) (mall : Mall) : Prop :=
  mall.state = none ∧ tierOf L term mall = none

instance (L : CaseMap) (term : JSString) (mall : Mall) : Decidable (Throws L term mall) :=
  inferInstanceAs (Decidable (_ ∧ _))

/-! ## The loading state (lines 42–60) -/

/-- The value `mallsData` read from the context (`undefined` when the provider has none). -/
abbrev MallsData := Option (List Mall)

/-- The test `mallsData && mallsData.length > 0`. -/
def hasData : MallsData → Bool
  | none => false
  | some l => decide (l.length > 0)

/-- The part of the component state that the two loading effects and the render read and
write.  `timer` is the pending `setTimeout` of the second effect, if any, together with the
value of `mallsData` its callback closed over.  The events below leave
`debouncedSearchTerm` as it is. -/
structure LoadState where
  selectedState : Option JSString
  mallsData : MallsData
  debouncedSearchTerm : JSString
  dataLoaded : Bool
  timer : Option MallsData
deriving DecidableEq

/-- What can happen to the loading state after the component is mounted. -/
inductive LoadEvent where
  /-- The handler `setSelectedState(state)` of a region button. -/
  | regionChange (state : Option JSString)
  /-- The context provides a new `mallsData`. -/
  | dataChange (data : MallsData)
  /-- The 100 ms of the pending timer have elapsed. -/
  | timerFired

/-- The `useMemo` of lines 62–111 on a context value that may be `undefined`: with no
region selected the value is handed back untouched (line 63); with a region selected
`mallsData.filter` at line 66 throws on `undefined`. -/
def memoFilteredMalls (L : CaseMap) (s : LoadState) : Except JSError (Option (List Entry)) :=
  match s.mallsData with
  | some data =>
    match filteredMalls L s.selectedState data s.debouncedSearchTerm with
    | .error e => .error e
    | .ok res => .ok (some res)
  | none =>
    match s.selectedState with
    | none => .ok none
    | some sel => if sel.isEmpty then .ok none else .error .typeError

/-- One render of the component body: the memo is evaluated, and the grid reads
`filteredMalls.length` (line 286) only when `dataLoaded` is set. -/
def render (L : CaseMap) (s : LoadState) : Except JSError Unit :=
  match memoFilteredMalls L s with
  | .error e => .error e
  | .ok none => if s.dataLoaded then .error .typeError else .ok ()
  | .ok (some _) => .ok ()

/-- The state `s` once it has been rendered; an exception thrown by the render takes the
component down. -/
def rendered (L : CaseMap) (s : LoadState) : Except JSError LoadState :=
  match render L s with
  | .error e => .error e
  | .ok _ => .ok s

/-- The effect on `[mallsData]`, lines 43–48. -/
def dataEffect (s : LoadState) : LoadState :=
  if hasData s.mallsData then { s with dataLoaded := true } else s

/-- The effect on `[selectedState]`, lines 51–60: `setDataLoaded(false)` and a new timer
whose callback closes over the `mallsData` of this render. -/
def regionEffect (s : LoadState) : LoadState :=
  { s with dataLoaded := false, timer := some s.mallsData }

/-- The callback of `setTimeout`, lines 54–58, on the `mallsData` it closed over. -/
def timerCallback (captured : MallsData) (s : LoadState) : LoadState :=
  if hasData captured then { s with dataLoaded := true } else s

/-- The first render, with the initial values `dataLoaded = false` and
`debouncedSearchTerm = ""`; then both effects run, in the order in which they are
declared, and the component renders the state they leave. -/
def mount (L : CaseMap) (selectedState : Option JSString) (mallsData : MallsData) :
    Except JSError LoadState :=
  match rendered L
      { selectedState := selectedState, mallsData := mallsData, debouncedSearchTerm := [],
        dataLoaded := false, timer := none } with
  | .error e => .error e
  | .ok s0 => rendered L (regionEffect (dataEffect s0))

/-- One event of the loading state.  Each change of a state or context value is followed by
a render, each effect by a render of the state it leaves.
* `regionChange`: setting the state to the value it has causes no render; otherwise the
  effect on `[selectedState]` is cleaned up (`clearTimeout`) and run again.
* `dataChange`: the effect on `[mallsData]` runs.
* `timerFired`: the pending timer, if any, runs its callback and is gone. -/
def loadStep (L : CaseMap) (s : LoadState) : LoadEvent → Except JSError LoadState
  | .regionChange state =>
    if state = s.selectedState then .ok s
    else
      match rendered L { s with selectedState := state } with
      | .error e => .error e
      | .ok s1 => rendered L (regionEffect { s1 with timer := none })
  | .dataChange data =>
    match rendered L { s with mallsData := data } with
    | .error e => .error e
    | .ok s1 => rendered L (dataEffect s1)
  | .timerFired =>
    match s.timer with
    | none => .ok s
    | some captured => rendered L (timerCallback captured { s with timer := none })

/-- A run of events, oldest first; it ends with the first render that throws. -/
def loadRun (L : CaseMap) : LoadState → List LoadEvent → Except JSError LoadState
  | s, [] => .ok s
  | s, e :: rest =>
    match loadStep L s e with
    | .error err => .error err
    | .ok s1 => loadRun L s1 rest

/-- The page showing the malls of Lagos: one record, no search term, loaded, no timer. -/
def lagosPage : LoadState :=
  { selectedState := some "Lagos".toList, mallsData := some [lagosMall],
    debouncedSearchTerm := [], dataLoaded := true, timer := none }

/-! ## The debounced search term (lines 26–40) -/

/-- The delay passed to `debounce`, in milliseconds. -/
def wait : Nat := 300

/-- The part of the component state the search effect reads and writes, at a time given in
milliseconds.  `pending` is the trailing call the debounced function holds: its argument
and the time at which it is due.  `updates` records every call of
`setDebouncedSearchTerm`, oldest first. -/
structure SearchState where
  searchTerm : JSString
  debouncedSearchTerm : JSString
  pending : Option (JSString × Nat)
  updates : List JSString
deriving DecidableEq

/-- Modelled from the spec: the body of the imported `debounce` is not among the sources;
section 4.1 gives its contract, a value is emitted only after 300 ms without a further
call.  This is the call `debouncedSearch(value)` at time `now`. -/
def debouncedSearch (now : Nat) (value : JSString) (s : SearchState) : SearchState :=
  { s with pending := some (value, now + wait) }

/-- Modelled from the spec: `debouncedSearch.cancel()`, which discards the pending
emission (section 4.1). -/
def cancel (s : SearchState) : SearchState :=
  { s with pending := none }

/-- Modelled from the spec: time passes until `now`; a pending emission that has become due
calls the debounced callback, `setDebouncedSearchTerm(value)`. -/
def elapse (now : Nat) (s : SearchState) : SearchState :=
  match s.pending with
  | none => s
  | some (value, due) =>
    if due ≤ now then
      { s with debouncedSearchTerm := value, pending := none, updates := s.updates ++ [value] }
    else s

/-- The input handler `setSearchTerm(value)` at time `now`: whatever was due before runs
first; setting the term to the value it has causes no render; otherwise the effect on
`[searchTerm, debouncedSearch]` is cleaned up (`cancel`) and run again. -/
def setSearchTerm (now : Nat) (value : JSString) (s : SearchState) : SearchState :=
  let s1 := elapse now s
  if value = s1.searchTerm then s1
  else debouncedSearch now value (cancel { s1 with searchTerm := value })

/-- A run of input changes, each with its time, oldest first. -/
def typing (s : SearchState) (changes : List (Nat × JSString)) : SearchState :=
  changes.foldl (fun st c => setSearchTerm c.1 c.2 st) s

/-- After a change to `value` at time `time`, every further change comes less than 300 ms
after the one before it and changes the value. -/
def Rapid (time : Nat) (value : JSString) : List (Nat × JSString) → Prop
  | [] => True
  | c :: rest => time ≤ c.1 ∧ c.1 < time + wait ∧ c.2 ≠ value ∧ Rapid c.1 c.2 rest

/-! ## Lemmas on strings -/

theorem includes_iff (s t : JSString) : includes s t = true ↔ t <:+: s := by
  unfold includes
  rw [List.any_eq_true, List.infix_iff_prefix_suffix]
  constructor
  · rintro ⟨u, hu, hp⟩
    exact ⟨u, List.isPrefixOf_iff_prefix.mp hp, (List.mem_tails _ _).mp hu⟩
  · rintro ⟨u, hp, hu⟩
    exact ⟨u, (List.mem_tails _ _).mpr hu, List.isPrefixOf_iff_prefix.mpr hp⟩

theorem includes_eq_decide (L : CaseMap) (field term : JSString) :
    includes (L.toLowerCase field) (L.toLowerCase term) = decide (containsCI L field term) := by
  rw [Bool.eq_iff_iff, includes_iff, decide_eq_true_iff]
  rfl

theorem lower_term_ne_nil (L : CaseMap) {term : JSString} (h : term ≠ []) :
    L.toLowerCase term ≠ [] := L.lower_ne_nil term h

theorem not_containsCI_nil (L : CaseMap) {term : JSString} (h : term ≠ []) :
    ¬ containsCI L [] term := by
  unfold containsCI
  rw [L.lower_nil]
  intro hi
  exact lower_term_ne_nil L h (List.eq_nil_of_infix_nil hi)

theorem isEmpty_eq_false {s : JSString} (h : s ≠ []) : s.isEmpty = false := by
  cases s with
  | nil => exact absurd rfl h
  | cons a t => rfl

theorem containsOpt_none (L : CaseMap) (term : JSString) :
    containsOpt L none term ↔ False := Iff.rfl

theorem containsOpt_some (L : CaseMap) (s term : JSString) :
    containsOpt L (some s) term ↔ containsCI L s term := Iff.rfl

theorem descriptionHit_eq (L : CaseMap) {term : JSString} (h : term ≠ []) (mall : Mall) :
    descriptionHit L (L.toLowerCase term) mall = decide (containsOpt L mall.description term) := by
  unfold descriptionHit
  cases hd : mall.description with
  | none => simp [containsOpt]
  | some d =>
    cases d with
    | nil => simpa [containsOpt] using not_containsCI_nil L h
    | cons a t => simp [containsOpt, includes_eq_decide]

/-! ## The scan computes the tiers -/

theorem classify_eq (L : CaseMap) {term : JSString} (h : term ≠ []) (b : Buckets) (mall : Mall) :
    classify L (L.toLowerCase term) b mall =
      if mall.state = none ∧ tierOf L term mall = none then .error .typeError
      else .ok (pushTier b mall (tierOf L term mall)) := by
  unfold classify tierOf
  rw [descriptionHit_eq L h, includes_eq_decide, includes_eq_decide]
  by_cases h4 : containsCI L mall.name term
  · simp [h4, pushTier]
  by_cases h3 : containsOpt L mall.description term
  · simp [h4, h3, pushTier]
  by_cases h2 : containsCI L mall.address term
  · simp [h4, h3, h2, pushTier]
  cases hs : mall.state with
  | none => simp [h4, h3, h2, containsOpt_none]
  | some st =>
    by_cases h1 : containsCI L st term
    · simp [h4, h3, h2, h1, containsOpt_some, includes_eq_decide, pushTier]
    · simp [h4, h3, h2, h1, containsOpt_some, includes_eq_decide, pushTier]

theorem tierOf_range (L : CaseMap) (term : JSString) (mall : Mall) (k : Nat)
    (h : tierOf L term mall = some k) : k = 4 ∨ k = 3 ∨ k = 2 ∨ k = 1 := by
  unfold tierOf at h
  split_ifs at h <;> simp at h <;> omega

theorem addGroups_nil (L : CaseMap) (term : JSString) (b : Buckets) :
    addGroups L term [] b = b := by
  simp [addGroups, tierGroup]

theorem addGroups_cons (L : CaseMap) (term : JSString) (mall : Mall) (rest : List Mall)
    (b : Buckets) :
    addGroups L term (mall :: rest) b
      = addGroups L term rest (pushTier b mall (tierOf L term mall)) := by
  rcases ht : tierOf L term mall with _ | k
  · simp [addGroups, tierGroup, pushTier, List.filter_cons, ht]
  · rcases tierOf_range L term mall k ht with rfl | rfl | rfl | rfl <;>
      simp [addGroups, tierGroup, pushTier, List.filter_cons, ht]

theorem forEach_ok (L : CaseMap) {term : JSString} (h : term ≠ []) :
    ∀ (mallsData : List Mall) (b : Buckets), (∀ mall ∈ mallsData, ¬ Throws L term mall) →
      forEach L (L.toLowerCase term) mallsData b = .ok (addGroups L term mallsData b) := by
  intro mallsData
  induction mallsData with
  | nil => intro b _; simp [forEach, addGroups_nil]
  | cons mall rest ih =>
    intro b hno
    have hm : ¬ (mall.state = none ∧ tierOf L term mall = none) :=
      hno mall (List.mem_cons_self _ _)
    rw [forEach, classify_eq L h, if_neg hm]
    simp only
    rw [ih _ (fun m hmem => hno m (List.mem_cons_of_mem _ hmem)), addGroups_cons]

theorem forEach_error (L : CaseMap) {term : JSString} (h : term ≠ []) :
    ∀ (mallsData : List Mall) (b : Buckets), (∃ mall ∈ mallsData, Throws L term mall) →
      forEach L (L.toLowerCase term) mallsData b = .error .typeError := by
  intro mallsData
  induction mallsData with
  | nil => intro b hex; simp at hex
  | cons mall rest ih =>
    intro b hex
    by_cases hm : mall.state = none ∧ tierOf L term mall = none
    · rw [forEach, classify_eq L h, if_pos hm]
    · rw [forEach, classify_eq L h, if_neg hm]
      simp only
      apply ih
      obtain ⟨m, hmem, hthrow⟩ := hex
      rcases List.mem_cons.mp hmem with rfl | hrest
      · exact absurd hthrow hm
      · exact ⟨m, hrest, hthrow⟩

/-- With a region selected and a non-empty term, `filteredMalls` is the ranked list, unless
some record makes the scan throw. -/
theorem filteredMalls_search (L : CaseMap) {sel term : JSString} (hsel : sel ≠ [])
    (hterm : term ≠ []) (mallsData : List Mall) :
    filteredMalls L (some sel) mallsData term =
      if ∃ mall ∈ mallsData, Throws L term mall then .error .typeError
      else .ok (ranked L term mallsData) := by
  unfold filteredMalls
  simp only [isEmpty_eq_false hsel, isEmpty_eq_false hterm, Bool.false_eq_true, if_false]
  split_ifs with hex
  · rw [forEach_error L hterm _ _ hex]
  · rw [forEach_ok L hterm _ _ (by simpa using hex)]
    simp [addGroups, ranked]

theorem filteredMalls_region (L : CaseMap) {sel : JSString} (hsel : sel ≠ [])
    (mallsData : List Mall) :
    filteredMalls L (some sel) mallsData [] =
      .ok ((mallsData.filter (stateMatches L sel)).map plain) := by
  unfold filteredMalls
  simp [isEmpty_eq_false hsel]

theorem not_throws_of_state (L : CaseMap) (term : JSString) {mallsData : List Mall}
    (hstate : ∀ mall ∈ mallsData, mall.state ≠ none) :
    ¬ ∃ mall ∈ mallsData, Throws L term mall := by
  rintro ⟨m, hm, hs, _⟩
  exact hstate m hm hs

/-! ## Properties of the ranked list -/

theorem mem_tierGroup (L : CaseMap) (term : JSString) (k : Nat) (mallsData : List Mall)
    (e : Entry) :
    e ∈ tierGroup L term k mallsData ↔
      ∃ mall ∈ mallsData, tierOf L term mall = some k ∧ e = scored k mall := by
  simp only [tierGroup, List.mem_map, List.mem_filter, decide_eq_true_eq]
  constructor
  · rintro ⟨m, ⟨hm, ht⟩, rfl⟩
    exact ⟨m, hm, ht, rfl⟩
  · rintro ⟨m, hm, ht, rfl⟩
    exact ⟨m, ⟨hm, ht⟩, rfl⟩

theorem mem_ranked (L : CaseMap) (term : JSString) (mallsData : List Mall) (e : Entry) :
    e ∈ ranked L term mallsData ↔
      ∃ mall ∈ mallsData, ∃ k, tierOf L term mall = some k ∧ e = scored k mall := by
  simp only [ranked, List.mem_append, mem_tierGroup]
  constructor
  · rintro (((⟨m, hm, ht, he⟩ | ⟨m, hm, ht, he⟩) | ⟨m, hm, ht, he⟩) | ⟨m, hm, ht, he⟩) <;>
      exact ⟨m, hm, _, ht, he⟩
  · rintro ⟨m, hm, k, ht, he⟩
    rcases tierOf_range L term m k ht with rfl | rfl | rfl | rfl
    · exact Or.inl (Or.inl (Or.inl ⟨m, hm, ht, he⟩))
    · exact Or.inl (Or.inl (Or.inr ⟨m, hm, ht, he⟩))
    · exact Or.inl (Or.inr ⟨m, hm, ht, he⟩)
    · exact Or.inr ⟨m, hm, ht, he⟩

theorem tierOf_contains (L : CaseMap) (term : JSString) (mall : Mall) (k : Nat)
    (h : tierOf L term mall = some k) :
    containsCI L mall.name term ∨ containsOpt L mall.description term
      ∨ containsCI L mall.address term ∨ containsOpt L mall.state term := by
  unfold tierOf at h
  split_ifs at h with h4 h3 h2 h1
  · exact Or.inl h4
  · exact Or.inr (Or.inl h3)
  · exact Or.inr (Or.inr (Or.inl h2))
  · exact Or.inr (Or.inr (Or.inr h1))

theorem tierOf_eq_none_iff (L : CaseMap) (term : JSString) (mall : Mall) :
    tierOf L term mall = none ↔
      ¬ containsCI L mall.name term ∧ ¬ containsOpt L mall.description term
        ∧ ¬ containsCI L mall.address term ∧ ¬ containsOpt L mall.state term := by
  unfold tierOf
  split_ifs with h4 h3 h2 h1 <;> simp [*]

theorem score_of_mem_tierGroup (L : CaseMap) (term : JSString) (k : Nat)
    (mallsData : List Mall) (e : Entry) (h : e ∈ tierGroup L term k mallsData) :
    e.relevanceScore = some k := by
  obtain ⟨m, _, _, rfl⟩ := (mem_tierGroup L term k mallsData e).mp h
  rfl

theorem tierGroup_pairwise (L : CaseMap) (term : JSString) (k : Nat) (mallsData : List Mall) :
    (tierGroup L term k mallsData).Pairwise (fun a b => score b ≤ score a) := by
  apply List.pairwise_of_forall_mem_list
  intro a ha b hb
  simp [score, score_of_mem_tierGroup L term k mallsData a ha,
    score_of_mem_tierGroup L term k mallsData b hb]

theorem ranked_pairwise (L : CaseMap) (term : JSString) (mallsData : List Mall) :
    (ranked L term mallsData).Pairwise (fun a b => score b ≤ score a) := by
  have hs : ∀ k e, e ∈ tierGroup L term k mallsData → score e = k := by
    intro k e he
    simp [score, score_of_mem_tierGroup L term k mallsData e he]
  unfold ranked
  refine List.pairwise_append.mpr ⟨List.pairwise_append.mpr ⟨List.pairwise_append.mpr
    ⟨tierGroup_pairwise L term 4 mallsData, tierGroup_pairwise L term 3 mallsData, ?_⟩,
    tierGroup_pairwise L term 2 mallsData, ?_⟩, tierGroup_pairwise L term 1 mallsData, ?_⟩
  · intro a ha b hb
    rw [hs 4 a ha, hs 3 b hb]
    decide
  · intro a ha b hb
    rw [hs 2 b hb]
    rcases List.mem_append.mp ha with h | h
    · rw [hs 4 a h]; decide
    · rw [hs 3 a h]; decide
  · intro a ha b hb
    rw [hs 1 b hb]
    rcases List.mem_append.mp ha with h | h
    · rcases List.mem_append.mp h with h | h
      · rw [hs 4 a h]; decide
      · rw [hs 3 a h]; decide
    · rw [hs 2 a h]; decide

theorem filter_tierGroup (L : CaseMap) (term : JSString) (j k : Nat) (mallsData : List Mall) :
    (tierGroup L term j mallsData).filter (fun e => decide (e.relevanceScore = some k))
      = if j = k then tierGroup L term j mallsData else [] := by
  split_ifs with hjk
  · rw [List.filter_eq_self]
    intro e he
    simp [score_of_mem_tierGroup L term j mallsData e he, hjk]
  · rw [List.filter_eq_nil_iff]
    intro e he
    simp [score_of_mem_tierGroup L term j mallsData e he, hjk]

theorem tierGroup_map_mall (L : CaseMap) (term : JSString) (k : Nat) (mallsData : List Mall) :
    (tierGroup L term k mallsData).map Entry.mall
      = mallsData.filter (fun mall => tierOf L term mall = some k) := by
  simp [tierGroup, Function.comp_def, scored]

theorem ranked_filter_map (L : CaseMap) (term : JSString) (k : Nat) (mallsData : List Mall) :
    ((ranked L term mallsData).filter (fun e => decide (e.relevanceScore = some k))).map
        Entry.mall
      = mallsData.filter (fun mall => tierOf L term mall = some k) := by
  unfold ranked
  simp only [List.filter_append, filter_tierGroup, List.map_append]
  by_cases h4 : 4 = k
  · subst h4; simp [tierGroup_map_mall]
  by_cases h3 : 3 = k
  · subst h3; simp [tierGroup_map_mall]
  by_cases h2 : 2 = k
  · subst h2; simp [tierGroup_map_mall]
  by_cases h1 : 1 = k
  · subst h1; simp [tierGroup_map_mall]
  · simp only [if_neg h4, if_neg h3, if_neg h2, if_neg h1, List.map_nil, List.append_nil]
    symm
    rw [List.filter_eq_nil_iff]
    intro m _ ht
    have := tierOf_range L term m k (by simpa using ht)
    omega

theorem count_scored_map (j k : Nat) (mall : Mall) (l : List Mall) :
    List.count (scored k mall) (l.map (scored j)) = if j = k then List.count mall l else 0 := by
  induction l with
  | nil => simp
  | cons a t ih =>
    rw [List.map_cons, List.count_cons, ih, List.count_cons]
    by_cases hjk : j = k
    · subst hjk
      by_cases ha : a = mall
      · subst ha; simp
      · have : scored j a ≠ scored j mall := by
          intro h
          exact ha (congrArg Entry.mall h)
        simp [ha, this]
    · have : scored j a ≠ scored k mall := by
        intro h
        have := congrArg Entry.relevanceScore h
        simp [scored] at this
        exact hjk this
      simp [hjk, this]

theorem count_tierGroup (L : CaseMap) (term : JSString) (j k : Nat) (mall : Mall)
    (mallsData : List Mall) :
    List.count (scored k mall) (tierGroup L term j mallsData)
      = if j = k ∧ tierOf L term mall = some k then List.count mall mallsData else 0 := by
  unfold tierGroup
  rw [count_scored_map]
  by_cases hjk : j = k
  · subst hjk
    by_cases ht : tierOf L term mall = some j
    · simp [ht, List.count_filter]
    · have : mall ∉ mallsData.filter (fun m => decide (tierOf L term m = some j)) := by
        simp [List.mem_filter, ht]
      simp [ht, List.count_eq_zero.mpr this]
  · simp [hjk]

theorem count_ranked (L : CaseMap) (term : JSString) (k : Nat) (mall : Mall)
    (mallsData : List Mall) :
    List.count (scored k mall) (ranked L term mallsData)
      = if tierOf L term mall = some k then List.count mall mallsData else 0 := by
  unfold ranked
  simp only [List.count_append, count_tierGroup]
  by_cases ht : tierOf L term mall = some k
  · rcases tierOf_range L term mall k ht with rfl | rfl | rfl | rfl <;> simp [ht]
  · simp [ht]

theorem stateMatches_eq (L : CaseMap) {sel : JSString} (hsel : sel ≠ []) (mall : Mall) :
    stateMatches L sel mall = decide (containsOpt L mall.state sel) := by
  unfold stateMatches
  cases hs : mall.state with
  | none => simp [containsOpt_none]
  | some st =>
    cases st with
    | nil => simpa [containsOpt_some] using not_containsCI_nil L hsel
    | cons a t => simp [containsOpt_some, includes_eq_decide]

/-! ## Lemmas on the loading state and the debounced term -/

theorem filteredMalls_total (L : CaseMap) (selectedState : Option JSString)
    (mallsData : List Mall) (term : JSString)
    (hstate : ∀ mall ∈ mallsData, mall.state ≠ none) :
    ∃ res, filteredMalls L selectedState mallsData term = .ok res := by
  cases selectedState with
  | none => exact ⟨_, rfl⟩
  | some sel =>
    cases sel with
    | nil => exact ⟨_, rfl⟩
    | cons c cs =>
      cases term with
      | nil => exact ⟨_, filteredMalls_region L (List.cons_ne_nil c cs) mallsData⟩
      | cons d ds =>
        refine ⟨ranked L (d :: ds) mallsData, ?_⟩
        rw [filteredMalls_search L (List.cons_ne_nil c cs) (List.cons_ne_nil d ds),
          if_neg (not_throws_of_state L _ hstate)]

theorem rendered_ok (L : CaseMap) (s : LoadState) (data : List Mall)
    (hdata : s.mallsData = some data) (hstate : ∀ mall ∈ data, mall.state ≠ none) :
    rendered L s = .ok s := by
  obtain ⟨res, hres⟩ := filteredMalls_total L s.selectedState data s.debouncedSearchTerm hstate
  simp [rendered, render, memoFilteredMalls, hdata, hres]

theorem hasData_some (data : List Mall) : hasData (some data) = true ↔ data ≠ [] := by
  cases data <;> simp [hasData]

theorem typing_rapid (rest : List (Nat × JSString)) :
    ∀ (s : SearchState) (time : Nat) (value : JSString),
      s.pending = some (value, time + wait) → s.searchTerm = value → Rapid time value rest →
      (typing s rest).pending
          = some ((rest.getLastD (time, value)).2, (rest.getLastD (time, value)).1 + wait)
        ∧ (typing s rest).searchTerm = (rest.getLastD (time, value)).2
        ∧ (typing s rest).updates = s.updates
        ∧ (typing s rest).debouncedSearchTerm = s.debouncedSearchTerm := by
  induction rest with
  | nil => intro s time value hp hs _; simp [typing, hp, hs]
  | cons c rest ih =>
    intro s time value hp hs hr
    obtain ⟨_, hlt, hne, hrest⟩ := hr
    have hel : elapse c.1 s = s := by
      simp only [elapse, hp]
      rw [if_neg (by omega)]
    have hstep : setSearchTerm c.1 c.2 s
        = { s with searchTerm := c.2, pending := some (c.2, c.1 + wait) } := by
      simp only [setSearchTerm, hel, hs]
      rw [if_neg hne]
      rfl
    have := ih (setSearchTerm c.1 c.2 s) c.1 c.2 (by rw [hstep]) (by rw [hstep]) hrest
    have hlast : (c :: rest).getLastD (time, value) = rest.getLastD (c.1, c.2) := by
      cases rest <;> simp [List.getLastD]
    rw [hlast]
    simpa [typing, hstep] using this

/-! ## The claims on `filteredMalls` -/

/-- C1: for a collection whose records all have a state, a selected (non-empty) region and a
non-empty committed term, `filteredMalls` returns a list, and every record of that list is
a record of the collection that contains the lower-cased term as a substring of the
lower-cased value of its name, description, address or state. -/
theorem filteredMalls_results_contain_term (L : CaseMap) (mallsData : List Mall)
    (sel term : JSString) (hsel : sel ≠ []) (hterm : term ≠ [])
    (hstate : ∀ mall ∈ mallsData, mall.state ≠ none) :
    ∃ res, filteredMalls L (some sel) mallsData term = .ok res ∧
      ∀ e ∈ res, e.mall ∈ mallsData ∧
        (containsCI L e.mall.name term ∨ containsOpt L e.mall.description term
          ∨ containsCI L e.mall.address term ∨ containsOpt L e.mall.state term) := by
  refine ⟨ranked L term mallsData, ?_, ?_⟩
  · rw [filteredMalls_search L hsel hterm, if_neg (not_throws_of_state L term hstate)]
  · intro e he
    obtain ⟨m, hm, k, ht, rfl⟩ := (mem_ranked L term mallsData e).mp he
    exact ⟨hm, tierOf_contains L term m k ht⟩

theorem filteredMalls_results_contain_term_witness :
    ("Lagos".toList ≠ [] ∧ "lagos".toList ≠ []
      ∧ ∀ mall ∈ [lagosMall, cityCenter], mall.state ≠ none) ∧
    ∃ res, filteredMalls asciiLower (some "Lagos".toList) [lagosMall, cityCenter]
        "lagos".toList = .ok res ∧
      ∀ e ∈ res, e.mall ∈ [lagosMall, cityCenter] ∧
        (containsCI asciiLower e.mall.name "lagos".toList
          ∨ containsOpt asciiLower e.mall.description "lagos".toList
          ∨ containsCI asciiLower e.mall.address "lagos".toList
          ∨ containsOpt asciiLower e.mall.state "lagos".toList) :=
  ⟨⟨by decide, by decide, by decide⟩,
    filteredMalls_results_contain_term asciiLower [lagosMall, cityCenter] "Lagos".toList
      "lagos".toList (by decide) (by decide) (by decide)⟩

/-- C2: for a collection whose records all have a state, a selected region and a non-empty
committed term, `filteredMalls` returns a list in which a record annotated with tier `k`
occurs as often as the record occurs in the collection when `k` is the tier of its first
matching field (name 4, description 3, address 2, state 1), and does not occur otherwise;
no entry lacks the annotation, so a record matching no field does not appear.  On the
worked example the result is Lagos Mall with tier 4 followed by City Center with tier 2. -/
theorem filteredMalls_first_matching_field (L : CaseMap) (mallsData : List Mall)
    (sel term : JSString) (hsel : sel ≠ []) (hterm : term ≠ [])
    (hstate : ∀ mall ∈ mallsData, mall.state ≠ none) :
    (∃ res, filteredMalls L (some sel) mallsData term = .ok res ∧
      (∀ mall k, List.count (scored k mall) res
        = if tierOf L term mall = some k then List.count mall mallsData else 0) ∧
      (∀ mall, plain mall ∉ res)) ∧
    filteredMalls asciiLower (some "Lagos".toList) [lagosMall, cityCenter] "lagos".toList
      = .ok [scored 4 lagosMall, scored 2 cityCenter] := by
  refine ⟨⟨ranked L term mallsData, ?_, ?_, ?_⟩, rfl⟩
  · rw [filteredMalls_search L hsel hterm, if_neg (not_throws_of_state L term hstate)]
  · intro mall k
    exact count_ranked L term k mall mallsData
  · intro mall hmem
    obtain ⟨m, _, k, _, he⟩ := (mem_ranked L term mallsData _).mp hmem
    have := congrArg Entry.relevanceScore he
    simp [plain, scored] at this

theorem filteredMalls_first_matching_field_witness :
    ("Abuja".toList ≠ [] ∧ "road".toList ≠ []
      ∧ ∀ mall ∈ [cityCenter, lagosMall, cityCenter], mall.state ≠ none) ∧
    ((∃ res, filteredMalls asciiLower (some "Abuja".toList) [cityCenter, lagosMall, cityCenter]
        "road".toList = .ok res ∧
      (∀ mall k, List.count (scored k mall) res
        = if tierOf asciiLower "road".toList mall = some k
          then List.count mall [cityCenter, lagosMall, cityCenter] else 0) ∧
      (∀ mall, plain mall ∉ res)) ∧
    filteredMalls asciiLower (some "Lagos".toList) [lagosMall, cityCenter] "lagos".toList
      = .ok [scored 4 lagosMall, scored 2 cityCenter]) :=
  ⟨⟨by decide, by decide, by decide⟩,
    filteredMalls_first_matching_field asciiLower [cityCenter, lagosMall, cityCenter]
      "Abuja".toList "road".toList (by decide) (by decide) (by decide)⟩

/-- C3: for a collection whose records all have a state, a selected region and a non-empty
committed term, `filteredMalls` returns a list whose entries all carry a tier from 1 to 4,
whose tiers never increase along the list, and in which an entry with a strictly higher
tier than another stands at a smaller index. -/
theorem filteredMalls_tiers_descend (L : CaseMap) (mallsData : List Mall)
    (sel term : JSString) (hsel : sel ≠ []) (hterm : term ≠ [])
    (hstate : ∀ mall ∈ mallsData, mall.state ≠ none) :
    ∃ res, filteredMalls L (some sel) mallsData term = .ok res ∧
      (∀ e ∈ res, ∃ k, e.relevanceScore = some k ∧ 1 ≤ k ∧ k ≤ 4) ∧
      res.Pairwise (fun a b => score b ≤ score a) ∧
      ∀ (i j : Nat) (hi : i < res.length) (hj : j < res.length),
        score res[j] < score res[i] → i < j := by
  refine ⟨ranked L term mallsData, ?_, ?_, ranked_pairwise L term mallsData, ?_⟩
  · rw [filteredMalls_search L hsel hterm, if_neg (not_throws_of_state L term hstate)]
  · intro e he
    obtain ⟨m, _, k, ht, rfl⟩ := (mem_ranked L term mallsData e).mp he
    refine ⟨k, rfl, ?_⟩
    have := tierOf_range L term m k ht
    omega
  · intro i j hi hj hlt
    by_contra hij
    rcases Nat.lt_or_eq_of_le (Nat.le_of_not_lt hij) with hji | hji
    · have := List.pairwise_iff_getElem.mp (ranked_pairwise L term mallsData) j i hj hi hji
      omega
    · subst hji
      exact Nat.lt_irrefl _ hlt

theorem filteredMalls_tiers_descend_witness :
    ("Lagos".toList ≠ [] ∧ "lagos".toList ≠ []
      ∧ ∀ mall ∈ [cityCenter, lagosMall], mall.state ≠ none) ∧
    ∃ res, filteredMalls asciiLower (some "Lagos".toList) [cityCenter, lagosMall]
        "lagos".toList = .ok res ∧
      (∀ e ∈ res, ∃ k, e.relevanceScore = some k ∧ 1 ≤ k ∧ k ≤ 4) ∧
      res.Pairwise (fun a b => score b ≤ score a) ∧
      ∀ (i j : Nat) (hi : i < res.length) (hj : j < res.length),
        score res[j] < score res[i] → i < j :=
  ⟨⟨by decide, by decide, by decide⟩,
    filteredMalls_tiers_descend asciiLower [cityCenter, lagosMall] "Lagos".toList
      "lagos".toList (by decide) (by decide) (by decide)⟩

/-- C4: for a collection whose records all have a state, a selected region and a non-empty
committed term, the entries of one tier in the list returned by `filteredMalls` are, read
in order and without the annotation, exactly the records of that tier in the order of the
collection: a sublist of the collection. -/
theorem filteredMalls_stable_within_tier (L : CaseMap) (mallsData : List Mall)
    (sel term : JSString) (hsel : sel ≠ []) (hterm : term ≠ [])
    (hstate : ∀ mall ∈ mallsData, mall.state ≠ none) :
    ∃ res, filteredMalls L (some sel) mallsData term = .ok res ∧
      ∀ k : Nat,
        ((res.filter (fun e => decide (e.relevanceScore = some k))).map Entry.mall
          = mallsData.filter (fun mall => tierOf L term mall = some k)) ∧
        List.Sublist
          ((res.filter (fun e => decide (e.relevanceScore = some k))).map Entry.mall)
          mallsData := by
  refine ⟨ranked L term mallsData, ?_, ?_⟩
  · rw [filteredMalls_search L hsel hterm, if_neg (not_throws_of_state L term hstate)]
  · intro k
    refine ⟨ranked_filter_map L term k mallsData, ?_⟩
    rw [ranked_filter_map]
    exact List.filter_sublist _

theorem filteredMalls_stable_within_tier_witness :
    ("Lagos".toList ≠ [] ∧ "mall".toList ≠ []
      ∧ ∀ mall ∈ [palmsMall, cityCenter, lagosMall], mall.state ≠ none) ∧
    ∃ res, filteredMalls asciiLower (some "Lagos".toList) [palmsMall, cityCenter, lagosMall]
        "mall".toList = .ok res ∧
      ∀ k : Nat,
        ((res.filter (fun e => decide (e.relevanceScore = some k))).map Entry.mall
          = [palmsMall, cityCenter, lagosMall].filter
              (fun mall => tierOf asciiLower "mall".toList mall = some k)) ∧
        List.Sublist
          ((res.filter (fun e => decide (e.relevanceScore = some k))).map Entry.mall)
          [palmsMall, cityCenter, lagosMall] :=
  ⟨⟨by decide, by decide, by decide⟩,
    filteredMalls_stable_within_tier asciiLower [palmsMall, cityCenter, lagosMall]
      "Lagos".toList "mall".toList (by decide) (by decide) (by decide)⟩

/-- C5: for every collection and every selected (non-empty) region, with an empty committed
term `filteredMalls` returns the records of the collection whose state, lower-cased,
contains the lower-cased region, unmodified and in their original order. -/
theorem filteredMalls_empty_term (L : CaseMap) (mallsData : List Mall) (sel : JSString)
    (hsel : sel ≠ []) :
    filteredMalls L (some sel) mallsData []
      = .ok ((mallsData.filter (fun mall => decide (containsOpt L mall.state sel))).map
          plain) := by
  rw [filteredMalls_region L hsel]
  congr 2
  apply List.filter_congr
  intro mall _
  exact stateMatches_eq L hsel mall

theorem filteredMalls_empty_term_witness :
    "lag".toList ≠ [] ∧
    filteredMalls asciiLower (some "lag".toList) [lagosMall, cityCenter] []
      = .ok (([lagosMall, cityCenter].filter
          (fun mall => decide (containsOpt asciiLower mall.state "lag".toList))).map plain) :=
  ⟨by decide,
    filteredMalls_empty_term asciiLower [lagosMall, cityCenter] "lag".toList (by decide)⟩

/-- C6: a non-empty committed term bypasses the region filter: for every collection and
every non-empty term, `filteredMalls` gives the same outcome for any two selected
(non-empty) regions; and for the collection holding only Lagos Mall, the region "Abuja"
and the term "lagos" the result holds a record whose state does not contain the region. -/
theorem filteredMalls_search_ignores_region (L : CaseMap) (mallsData : List Mall)
    (r1 r2 term : JSString) (h1 : r1 ≠ []) (h2 : r2 ≠ []) (hterm : term ≠ []) :
    filteredMalls L (some r1) mallsData term = filteredMalls L (some r2) mallsData term ∧
    ∃ res e, filteredMalls asciiLower (some "Abuja".toList) [lagosMall] "lagos".toList
        = .ok res ∧ e ∈ res ∧ ¬ containsOpt asciiLower e.mall.state "Abuja".toList := by
  refine ⟨?_, [scored 4 lagosMall], scored 4 lagosMall, rfl, List.mem_singleton.mpr rfl, ?_⟩
  · rw [filteredMalls_search L h1 hterm, filteredMalls_search L h2 hterm]
  · decide

theorem filteredMalls_search_ignores_region_witness :
    ("Abuja".toList ≠ [] ∧ "Lagos".toList ≠ [] ∧ "mall".toList ≠ []) ∧
    (filteredMalls asciiLower (some "Abuja".toList) [lagosMall, cityCenter] "mall".toList
      = filteredMalls asciiLower (some "Lagos".toList) [lagosMall, cityCenter] "mall".toList ∧
    ∃ res e, filteredMalls asciiLower (some "Abuja".toList) [lagosMall] "lagos".toList
        = .ok res ∧ e ∈ res ∧ ¬ containsOpt asciiLower e.mall.state "Abuja".toList) :=
  ⟨⟨by decide, by decide, by decide⟩,
    filteredMalls_search_ignores_region asciiLower [lagosMall, cityCenter] "Abuja".toList
      "Lagos".toList "mall".toList (by decide) (by decide) (by decide)⟩

/-- C7: when no region is selected, be it absent or the empty string, `filteredMalls`
returns the collection itself, the same records in the same order without a relevance
tier, for every collection and every committed term. -/
theorem filteredMalls_no_region (L : CaseMap) (mallsData : List Mall) (term : JSString) :
    filteredMalls L none mallsData term = .ok (mallsData.map plain) ∧
    filteredMalls L (some []) mallsData term = .ok (mallsData.map plain) ∧
    (mallsData.map plain).map Entry.mall = mallsData ∧
    ∀ e ∈ mallsData.map plain, e.relevanceScore = none := by
  refine ⟨rfl, rfl, ?_, ?_⟩
  · simp [Function.comp_def, plain]
  · intro e he
    obtain ⟨m, _, rfl⟩ := List.mem_map.mp he
    rfl

/-- C10: for a collection whose records may lack a state and a selected (non-empty)
region, `filteredMalls` raises an error exactly when the committed term is non-empty and
some record without a state contains the term in none of its name, description and
address; with an empty term it returns a list, and no record without a state is in it. -/
theorem filteredMalls_raises_iff (L : CaseMap) (mallsData : List Mall) (sel term : JSString)
    (hsel : sel ≠ []) :
    ((∃ err, filteredMalls L (some sel) mallsData term = .error err) ↔
      term ≠ [] ∧ ∃ mall ∈ mallsData, mall.state = none ∧ ¬ containsCI L mall.name term
        ∧ ¬ containsOpt L mall.description term ∧ ¬ containsCI L mall.address term) ∧
    ∃ res, filteredMalls L (some sel) mallsData [] = .ok res ∧
      ∀ e ∈ res, e.mall ∈ mallsData ∧ e.mall.state ≠ none := by
  have hthrows : ∀ mall : Mall, Throws L term mall ↔
      (mall.state = none ∧ ¬ containsCI L mall.name term
        ∧ ¬ containsOpt L mall.description term ∧ ¬ containsCI L mall.address term) := by
    intro mall
    unfold Throws
    rw [tierOf_eq_none_iff]
    constructor
    · rintro ⟨hs, h4, h3, h2, _⟩
      exact ⟨hs, h4, h3, h2⟩
    · rintro ⟨hs, h4, h3, h2⟩
      refine ⟨hs, h4, h3, h2, ?_⟩
      rw [hs]
      exact fun h => h
  constructor
  · by_cases hterm : term = []
    · subst hterm
      rw [filteredMalls_region L hsel]
      constructor
      · rintro ⟨err, herr⟩
        cases herr
      · rintro ⟨hne, _⟩
        exact absurd rfl hne
    · rw [filteredMalls_search L hsel hterm]
      by_cases hex : ∃ mall ∈ mallsData, Throws L term mall
      · rw [if_pos hex]
        obtain ⟨m, hm, ht⟩ := hex
        exact ⟨fun _ => ⟨hterm, m, hm, (hthrows m).mp ht⟩, fun _ => ⟨_, rfl⟩⟩
      · rw [if_neg hex]
        constructor
        · rintro ⟨err, herr⟩
          cases herr
        · rintro ⟨_, m, hm, ht⟩
          exact absurd ⟨m, hm, (hthrows m).mpr ht⟩ hex
  · refine ⟨_, filteredMalls_region L hsel mallsData, ?_⟩
    intro e he
    obtain ⟨m, hm, rfl⟩ := List.mem_map.mp he
    obtain ⟨hmem, hmatch⟩ := List.mem_filter.mp hm
    refine ⟨hmem, ?_⟩
    intro hs
    have hs1 : m.state = none := hs
    simp [stateMatches, hs1] at hmatch

theorem filteredMalls_raises_iff_witness :
    "Lagos".toList ≠ [] ∧
    (((∃ err, filteredMalls asciiLower (some "Lagos".toList) [lagosMall, strayMall]
          "lagos".toList = .error err) ↔
      "lagos".toList ≠ [] ∧ ∃ mall ∈ [lagosMall, strayMall], mall.state = none
        ∧ ¬ containsCI asciiLower mall.name "lagos".toList
        ∧ ¬ containsOpt asciiLower mall.description "lagos".toList
        ∧ ¬ containsCI asciiLower mall.address "lagos".toList) ∧
    ∃ res, filteredMalls asciiLower (some "Lagos".toList) [lagosMall, strayMall] []
        = .ok res ∧
      ∀ e ∈ res, e.mall ∈ [lagosMall, strayMall] ∧ e.mall.state ≠ none) :=
  ⟨by decide,
    filteredMalls_raises_iff asciiLower [lagosMall, strayMall] "Lagos".toList "lagos".toList
      (by decide)⟩

/-! ## The claims on the loading state and the debounced term -/

/-- C8, as amended: from a state whose collection is a list of records with a state, a
region change leaves the loading state not-loaded with the 100 ms timer pending, whether
or not the collection holds records.  While that timer is pending, a data-source change
makes the state loaded exactly when the new collection holds at least one record.  With
no such change, the firing of the timer makes it loaded exactly when the collection holds
at least one record. -/
theorem loading_after_region_change (L : CaseMap) (s : LoadState) (state : Option JSString)
    (data : List Mall) (hchange : state ≠ s.selectedState) (hdata : s.mallsData = some data)
    (hstate : ∀ mall ∈ data, mall.state ≠ none) :
    ∃ s1, loadStep L s (.regionChange state) = .ok s1 ∧
      s1.dataLoaded = false ∧ s1.timer = some (some data) ∧ s1.mallsData = some data ∧
      s1.selectedState = state ∧
      (∀ fresh : List Mall, (∀ mall ∈ fresh, mall.state ≠ none) →
        ∃ s2, loadStep L s1 (.dataChange (some fresh)) = .ok s2 ∧
          s2.timer = some (some data) ∧ s2.mallsData = some fresh ∧
          (s2.dataLoaded = true ↔ fresh ≠ [])) ∧
      ∃ s3, loadStep L s1 .timerFired = .ok s3 ∧ s3.timer = none ∧
        (s3.dataLoaded = true ↔ data ≠ []) := by
  have h1 : rendered L { s with selectedState := state } = .ok { s with selectedState := state } :=
    rendered_ok L _ data hdata hstate
  have h2 : rendered L (regionEffect { s with selectedState := state, timer := none })
      = .ok (regionEffect { s with selectedState := state, timer := none }) :=
    rendered_ok L _ data hdata hstate
  have hstep : loadStep L s (.regionChange state)
      = .ok (regionEffect { s with selectedState := state, timer := none }) := by
    simp only [loadStep]
    rw [if_neg hchange, h1]
    exact h2
  refine ⟨_, hstep, rfl, by simp [regionEffect, hdata], hdata, rfl, ?_, ?_⟩
  · intro fresh hfresh
    by_cases hne : fresh = []
    · subst hne
      refine ⟨{ regionEffect { s with selectedState := state, timer := none } with
          mallsData := some [] }, ?_, by simp [regionEffect, hdata], rfl, by simp [regionEffect]⟩
      simp only [loadStep]
      rw [rendered_ok L _ [] rfl hfresh]
      simp only [dataEffect, hasData]
      exact rendered_ok L _ [] rfl hfresh
    · refine ⟨{ regionEffect { s with selectedState := state, timer := none } with
          mallsData := some fresh, dataLoaded := true }, ?_, by simp [regionEffect, hdata],
          rfl, by simp [hne]⟩
      simp only [loadStep]
      rw [rendered_ok L _ fresh rfl hfresh]
      simp only [dataEffect, (hasData_some fresh).mpr hne, if_true]
      exact rendered_ok L _ fresh rfl hfresh
  · by_cases hne : data = []
    · refine ⟨{ regionEffect { s with selectedState := state, timer := none } with
          timer := none }, ?_, rfl, by simp [regionEffect, hne]⟩
      simp only [loadStep, regionEffect, hdata, timerCallback, hne, hasData]
      exact rendered_ok L _ data (by simp [hne]) hstate
    · refine ⟨{ regionEffect { s with selectedState := state, timer := none } with
          timer := none, dataLoaded := true }, ?_, rfl, by simp [hne]⟩
      simp only [loadStep, regionEffect, hdata, timerCallback, (hasData_some data).mpr hne,
        if_true]
      exact rendered_ok L _ data rfl hstate

theorem loading_after_region_change_witness :
    (some "Abuja".toList ≠ lagosPage.selectedState ∧ lagosPage.mallsData = some [lagosMall]
      ∧ ∀ mall ∈ [lagosMall], mall.state ≠ none) ∧
    ∃ s1, loadStep asciiLower lagosPage (.regionChange (some "Abuja".toList)) = .ok s1 ∧
      s1.dataLoaded = false ∧ s1.timer = some (some [lagosMall]) ∧
      s1.mallsData = some [lagosMall] ∧ s1.selectedState = some "Abuja".toList ∧
      (∀ fresh : List Mall, (∀ mall ∈ fresh, mall.state ≠ none) →
        ∃ s2, loadStep asciiLower s1 (.dataChange (some fresh)) = .ok s2 ∧
          s2.timer = some (some [lagosMall]) ∧ s2.mallsData = some fresh ∧
          (s2.dataLoaded = true ↔ fresh ≠ [])) ∧
      ∃ s3, loadStep asciiLower s1 .timerFired = .ok s3 ∧ s3.timer = none ∧
        (s3.dataLoaded = true ↔ [lagosMall] ≠ []) :=
  ⟨⟨by decide, rfl, by decide⟩,
    loading_after_region_change asciiLower lagosPage (some "Abuja".toList) [lagosMall]
      (by decide) rfl (by decide)⟩

/-- C8, the claim as first stated fails: the page mounted with one record and loaded by
its timer is switched from Lagos to Abuja; the data source still holds the record and the
delay has not elapsed, yet the loading state is not-loaded, and it is the timer that makes
it loaded. -/
theorem loading_not_loaded_while_data_present :
    ∃ s0 s1 s2, mount asciiLower (some "Lagos".toList) (some [lagosMall]) = .ok s0 ∧
      loadStep asciiLower s0 .timerFired = .ok lagosPage ∧
      loadStep asciiLower lagosPage (.regionChange (some "Abuja".toList)) = .ok s1 ∧
      hasData s1.mallsData = true ∧ s1.timer = some (some [lagosMall]) ∧
      s1.dataLoaded = false ∧
      loadStep asciiLower s1 .timerFired = .ok s2 ∧ s2.dataLoaded = true :=
  ⟨_, _, _, rfl, rfl, rfl, rfl, rfl, rfl, rfl, rfl⟩

/-- C9: starting from any state, for a run of changes of the raw term in which the first
one changes the term, each later one changes it again less than 300 ms after the one
before, and 300 ms or more pass after the last one, `setDebouncedSearchTerm` is called
exactly once from the first change on, with the last raw value: the calls recorded are
those made before the first change followed by that one value, the committed term is the
last raw value and nothing is left pending. -/
theorem debounce_commits_last_value_once (s : SearchState) (time : Nat) (value : JSString)
    (rest : List (Nat × JSString)) (later : Nat) (hfirst : value ≠ s.searchTerm)
    (hrapid : Rapid time value rest)
    (hquiet : (rest.getLastD (time, value)).1 + wait ≤ later) :
    (elapse later (typing s ((time, value) :: rest))).updates
        = (elapse time s).updates ++ [(rest.getLastD (time, value)).2] ∧
    (elapse later (typing s ((time, value) :: rest))).debouncedSearchTerm
        = (rest.getLastD (time, value)).2 ∧
    (elapse later (typing s ((time, value) :: rest))).pending = none ∧
    (elapse later (typing s ((time, value) :: rest))).searchTerm
        = (rest.getLastD (time, value)).2 := by
  have hs1 : (elapse time s).searchTerm = s.searchTerm := by
    unfold elapse
    split
    · rfl
    · split_ifs <;> rfl
  have hstep : setSearchTerm time value s
      = { elapse time s with searchTerm := value, pending := some (value, time + wait) } := by
    simp only [setSearchTerm, hs1]
    rw [if_neg hfirst]
    rfl
  have htyping : typing s ((time, value) :: rest) = typing (setSearchTerm time value s) rest := by
    simp [typing]
  obtain ⟨hp, ht, hu, _⟩ :=
    typing_rapid rest (setSearchTerm time value s) time value (by rw [hstep]) (by rw [hstep])
      hrapid
  rw [htyping]
  have hu1 : (typing (setSearchTerm time value s) rest).updates = (elapse time s).updates := by
    rw [hu, hstep]
  simp only [elapse, hp, if_pos hquiet, hu1, ht, and_self]

theorem debounce_commits_last_value_once_witness :
    ("l".toList ≠ ([] : JSString) ∧
      Rapid 0 "l".toList [(120, "la".toList), (400, "lag".toList)] ∧
      ([(120, "la".toList), (400, "lag".toList)].getLastD (0, "l".toList)).1 + wait ≤ 700) ∧
    (elapse 700 (typing ⟨[], [], none, []⟩
        [(0, "l".toList), (120, "la".toList), (400, "lag".toList)])).updates
      = ["lag".toList] :=
  ⟨⟨by decide, by simp [Rapid, wait], by decide⟩,
    (debounce_commits_last_value_once ⟨[], [], none, []⟩ 0 "l".toList
      [(120, "la".toList), (400, "lag".toList)] 700 (by decide) (by simp [Rapid, wait])
      (by decide)).1⟩

end Malls
